import Mathlib

/-!
Verification of the stock-scout enrichment-and-caching pipeline.

Shallow embedding conventions:
* JavaScript numbers are modelled as rationals (`ℚ`); the arithmetic the
  claims are about (linear score formulas, sums of reported values,
  day-count divisions) is exact on all inputs of interest.
* `Math.round` rounds half toward positive infinity, i.e. `⌊x + 1/2⌋`.
* Millisecond timestamps (values of `new Date(s).getTime()`, for date
  strings that parse) are modelled as integers (`ℤ`).
* `null`/`undefined` becomes `Option`; a thrown exception becomes
  `Except`.
-/

namespace StockScout

/-- JavaScript `Math.round`: rounds half toward +∞, i.e. `⌊q + 1/2⌋`.
Written with `Rat.floor` so the kernel can evaluate it on concrete inputs. -/
def jsRound (q : ℚ) : ℤ := (q + 1/2).floor

/-- From src/lib/valueScore.ts `clamp25`:
`Math.min(25, Math.max(0, Math.round(value)))`. -/
def clamp25 (value : ℚ) : ℤ := min 25 (max 0 (jsRound value))

/-- From src/lib/valueScore.ts `clamp100`:
`Math.min(100, Math.max(0, Math.round(value)))`. -/
def clamp100 (value : ℚ) : ℤ := min 100 (max 0 (jsRound value))

/-- From src/lib/valueScore.ts `calcPeScore`. -/
def calcPeScore (peTtm : Option ℚ) : ℤ :=
  match peTtm with
  | none => 0
  | some pe => if pe ≤ 0 then 0 else clamp25 (25 * (1 - (pe - 10) / 30))

/-- From src/lib/valueScore.ts `calcPsScore`. -/
def calcPsScore (ps : Option ℚ) : ℤ :=
  match ps with
  | none => 0
  | some p => clamp25 (25 * (1 - (p - 1) / 9))

/-- From src/lib/valueScore.ts `calcRevenueGrowthScore`. -/
def calcRevenueGrowthScore (revenueGrowthYoY : Option ℚ) : ℤ :=
  match revenueGrowthYoY with
  | none => 0
  | some g => if g ≤ 0 then 0 else clamp25 (g / 20 * 25)

/-- From src/lib/valueScore.ts `calcOperatingMarginScore`. -/
def calcOperatingMarginScore (operatingMargin : Option ℚ) : ℤ :=
  match operatingMargin with
  | none => 0
  | some m => if m ≤ 0 then 0 else clamp25 (m / 25 * 25)

/-- From src/types/index.ts `ValueScoreBreakdown`. -/
structure ValueScoreBreakdown where
  peScore : ℤ
  psScore : ℤ
  revenueGrowthScore : ℤ
  operatingMarginScore : ℤ
  deriving Repr, DecidableEq

/-- Input record of src/lib/valueScore.ts `calculateValueScore`. -/
structure ScoreParams where
  peTtm : Option ℚ
  ps : Option ℚ
  revenueGrowthYoY : Option ℚ
  operatingMargin : Option ℚ
  deriving Repr, DecidableEq

/-- From src/lib/valueScore.ts `ValueScoreResult`. -/
structure ValueScoreResult where
  total : ℤ
  breakdown : ValueScoreBreakdown
  deriving Repr, DecidableEq

/-- From src/lib/valueScore.ts `calculateValueScore`. -/
def calculateValueScore (params : ScoreParams) : ValueScoreResult :=
  let peScore := calcPeScore params.peTtm
  let psScore := calcPsScore params.ps
  let revenueGrowthScore := calcRevenueGrowthScore params.revenueGrowthYoY
  let operatingMarginScore := calcOperatingMarginScore params.operatingMargin
  { total := clamp100 ((peScore + psScore + revenueGrowthScore + operatingMarginScore : ℤ) : ℚ)
    breakdown :=
      { peScore := peScore
        psScore := psScore
        revenueGrowthScore := revenueGrowthScore
        operatingMarginScore := operatingMarginScore } }

/-! The second scoring implementation, src/scoring/calculateValueScore.ts. -/

/-- From src/providers/types.ts `StockFundamentals`
(the numeric fields relevant to scoring; `ticker`/`asOf` omitted as the
scorer never reads them). -/
structure StockFundamentals where
  marketCap : Option ℚ
  peTtm : Option ℚ
  ps : Option ℚ
  epsTtm : Option ℚ
  revenueTtm : Option ℚ
  revenueGrowthYoY : Option ℚ
  operatingMargin : Option ℚ
  deriving Repr, DecidableEq

/-- From src/scoring/calculateValueScore.ts `ValueScoreBreakdown`. -/
structure ScoringBreakdown where
  peScore : ℤ
  psScore : ℤ
  growthScore : ℤ
  marginScore : ℤ
  deriving Repr, DecidableEq

/-- From src/scoring/calculateValueScore.ts `ValueScoreResult`. -/
structure ScoringResult where
  total : ℤ
  breakdown : ScoringBreakdown
  deriving Repr, DecidableEq

/-- From src/scoring/calculateValueScore.ts `clampComponent`. -/
def clampComponent (value : ℚ) : ℤ := min 25 (max 0 (jsRound value))

/-- From src/scoring/calculateValueScore.ts `clampTotal`. -/
def clampTotal (value : ℚ) : ℤ := min 100 (max 0 (jsRound value))

/-- From src/scoring/calculateValueScore.ts `calculateValueScore`
(the divergent revision: growth divisor 30, null P/S defaulted to 10). -/
def scoringCalculateValueScore (fundamentals : StockFundamentals) : ScoringResult :=
  let peScore :=
    match fundamentals.peTtm with
    | none => 0
    | some pe => if pe ≤ 0 then 0 else clampComponent (25 * (1 - (pe - 10) / 30))
  let psScore := clampComponent (25 * (1 - ((fundamentals.ps.getD 10) - 1) / 9))
  let growthScore := clampComponent (max 0 (fundamentals.revenueGrowthYoY.getD 0) / 30 * 25)
  let marginScore := clampComponent (max 0 (fundamentals.operatingMargin.getD 0) / 25 * 25)
  { total := clampTotal ((peScore + psScore + growthScore + marginScore : ℤ) : ℚ)
    breakdown :=
      { peScore := peScore
        psScore := psScore
        growthScore := growthScore
        marginScore := marginScore } }

/-! ## Data model of the enrichment cache (src/lib/dataCache.ts, src/types/index.ts) -/

/-- From src/types/index.ts `CacheStatus`. -/
inductive CacheStatus where
  | cold
  | loading
  | ready
  | error
  deriving Repr, DecidableEq

/-- From src/types/index.ts `EnrichedTicker`. Timestamps and names are strings,
numbers are rationals, `null` is `none`. -/
structure EnrichedTicker where
  ticker : String
  companyName : Option String
  latestPrice : Option ℚ
  marketCap : Option ℚ
  peTtm : Option ℚ
  ps : Option ℚ
  epsTtm : Option ℚ
  revenueTtm : Option ℚ
  revenueGrowthYoY : Option ℚ
  operatingMargin : Option ℚ
  valueScore : ℤ
  scoreBreakdown : ValueScoreBreakdown
  fundamentalsAsOf : Option String
  deriving Repr, DecidableEq

/-- From src/lib/dataCache.ts `CacheState` (module singleton `state`). -/
structure CacheState where
  status : CacheStatus
  tickers : List EnrichedTicker
  lastUpdated : Option String
  error : Option String
  deriving Repr, DecidableEq

/-- A JavaScript thrown value as seen by `catch (err)`: either an `Error`
carrying a message string, or any other value. -/
inductive JsThrown where
  | jsError (msg : String)
  | nonError
  deriving Repr, DecidableEq

/-- From src/lib/dataCache.ts line 152:
`err instanceof Error ? err.message : 'Preload failed.'`. -/
def preloadErrorMessage : JsThrown → String
  | .jsError m => m
  | .nonError => "Preload failed."

/-- The synchronous prefix of src/lib/dataCache.ts `runPreload` (lines 132–133):
`state.status = 'loading'; state.error = undefined;`. -/
def runPreloadStart (st : CacheState) : CacheState :=
  { st with status := .loading, error := none }

/-- The completion of src/lib/dataCache.ts `runPreload` (lines 135–153): the
`try` block either produces the enriched list (then the collection is replaced,
`lastUpdated` is set and status becomes `ready`) or throws (then status becomes
`error` with the message derived from the thrown value, and `tickers` /
`lastUpdated` are not assigned). `outcome` is the result of awaiting the
pipeline steps, `now` is `new Date().toISOString()`. -/
def runPreloadFinish (st : CacheState)
    (outcome : Except JsThrown (List EnrichedTicker)) (now : String) : CacheState :=
  match outcome with
  | .ok enriched =>
      { st with tickers := enriched, lastUpdated := some now, status := .ready }
  | .error err =>
      { st with status := .error, error := some (preloadErrorMessage err) }

/-- src/lib/dataCache.ts `runPreload` end to end: the synchronous prefix, then
the try/catch completion. -/
def runPreload (st : CacheState)
    (outcome : Except JsThrown (List EnrichedTicker)) (now : String) : CacheState :=
  runPreloadFinish (runPreloadStart st) outcome now

/-! ## The orchestrator single-flight state machine (src/lib/dataCache.ts) -/

/-- src/lib/dataCache.ts module state: the cache record plus the
`preloadInFlight` promise handle, identified here by a numeric run id. -/
structure OrchState where
  cache : CacheState
  preloadInFlight : Option ℕ
  deriving Repr, DecidableEq

/-- What a call to `triggerPreload` returns to its caller. -/
inductive TriggerResult where
  /-- `Promise.resolve()` — the ready/no-force no-op. -/
  | resolvedNoop
  /-- The already-stored `preloadInFlight` promise of run `id`. -/
  | joined (id : ℕ)
  /-- A newly started run with fresh id `id`. -/
  | started (id : ℕ)
  deriving Repr, DecidableEq

/-- From src/lib/dataCache.ts `triggerPreload` (lines 111–125). Starting a run
synchronously executes `runPreloadStart` (the body of `runPreload` up to its
first `await`), so the cache flips to `loading` in the same step. -/
def triggerPreload (st : OrchState) (forceRefresh : Bool) (freshId : ℕ) :
    OrchState × TriggerResult :=
  if forceRefresh = false ∧ st.cache.status = .ready then
    (st, .resolvedNoop)
  else
    match st.preloadInFlight with
    | some id => (st, .joined id)
    | none =>
        ({ cache := runPreloadStart st.cache, preloadInFlight := some freshId },
         .started freshId)

/-- A preload run completing: `runPreloadFinish` applies the try/catch result
and the `.finally` handler clears `preloadInFlight`. -/
def completePreload (st : OrchState)
    (outcome : Except JsThrown (List EnrichedTicker)) (now : String) : OrchState :=
  { cache := runPreloadFinish st.cache outcome now, preloadInFlight := none }

/-- One step of the orchestrator: either some caller invokes `triggerPreload`,
or the in-flight run completes. -/
inductive OrchStep : OrchState → OrchState → Prop where
  | trigger (st : OrchState) (force : Bool) (freshId : ℕ) :
      OrchStep st (triggerPreload st force freshId).1
  | complete (st : OrchState) (id : ℕ)
      (outcome : Except JsThrown (List EnrichedTicker)) (now : String)
      (h : st.preloadInFlight = some id) :
      OrchStep st (completePreload st outcome now)

/-- Module boot state of src/lib/dataCache.ts: status `cold`, empty collection,
no `lastUpdated`, no error, no preload in flight. -/
def orchInit : OrchState :=
  { cache := { status := .cold, tickers := [], lastUpdated := none, error := none }
    preloadInFlight := none }

/-- States the orchestrator can actually be in. -/
def OrchReachable (st : OrchState) : Prop :=
  Relation.ReflTransGen OrchStep orchInit st

/-! ### C3: `triggerPreload` no-op and single-flight semantics -/

/-- The single-flight invariant: whenever a preload promise is stored, the cache
status is `loading` (`runPreload` flips it synchronously before its first
`await`, and completion clears the handle). -/
def OrchInv (st : OrchState) : Prop :=
  ∀ id, st.preloadInFlight = some id → st.cache.status = .loading

/-! ## Universe quote service (src/server/universeQuotesService.ts) -/

/-- From src/server/universeQuotesService.ts `UniverseQuote`. -/
structure UniverseQuote where
  price : ℚ
  asOf : String
  source : String
  deriving Repr, DecidableEq

/-- A ticker→quote object, modelled as an association list. -/
abbrev UniverseQuoteMap := List (String × UniverseQuote)

/-- From src/server/universeQuotesService.ts `QuoteCacheEntry`. -/
structure QuoteCacheEntry where
  expiresAt : ℤ
  quotes : UniverseQuoteMap
  deriving Repr, DecidableEq

/-- Module state of src/server/universeQuotesService.ts: the in-memory TTL
entry `cacheEntry` and the `inFlightRefresh` promise handle (a run id). -/
structure QuotesServiceState where
  cacheEntry : Option QuoteCacheEntry
  inFlightRefresh : Option ℕ
  deriving Repr, DecidableEq

/-- `QUOTE_TTL_MS = 10 * 60 * 1000`. -/
def QUOTE_TTL_MS : ℤ := 10 * 60 * 1000

/-- What a call to `getUniverseQuotes` does. -/
inductive QuotesDecision where
  /-- Served from the fresh in-memory TTL cache. -/
  | servedMemory (quotes : UniverseQuoteMap)
  /-- Awaited the already in-flight refresh run `id`. -/
  | joinedInFlight (id : ℕ)
  /-- Served from the durable file cache. -/
  | servedFile (quotes : UniverseQuoteMap)
  /-- Started a NEW `refreshQuotes` run with fresh id `id`. -/
  | startedRefresh (id : ℕ)
  deriving Repr, DecidableEq

/-- Final fall-through of `getUniverseQuotes`:
`inFlightRefresh = refreshQuotes()` — stores a NEW run handle (overwriting any
previous one) and returns that run. -/
def startQuotesRefresh (st : QuotesServiceState) (freshId : ℕ) :
    QuotesServiceState × QuotesDecision :=
  ({ st with inFlightRefresh := some freshId }, .startedRefresh freshId)

/-- Checks 2 and 3 of `getUniverseQuotes` (reached only when `forceRefresh` is
false and the in-memory entry is absent or expired): join an in-flight refresh,
else serve the durable file cache (re-priming the memory entry), else start a
refresh. `fileRead` is the result of `readFileCache(UNIVERSE_CACHE_KEY)`. -/
def quotesAfterMemoryCheck (st : QuotesServiceState) (now : ℤ)
    (fileRead : Option UniverseQuoteMap) (freshId : ℕ) :
    QuotesServiceState × QuotesDecision :=
  match st.inFlightRefresh with
  | some id => (st, .joinedInFlight id)
  | none =>
      match fileRead with
      | some quotes =>
          ({ st with cacheEntry := some { expiresAt := now + QUOTE_TTL_MS, quotes := quotes } },
           .servedFile quotes)
      | none => startQuotesRefresh st freshId

/-- From src/server/universeQuotesService.ts `getUniverseQuotes`
(lines 197–226): with `forceRefresh` false, check the in-memory TTL entry
(`expiresAt > Date.now()`), then the in-flight handle, then the file cache;
with `forceRefresh` true, skip ALL three checks and start a new refresh. -/
def getUniverseQuotes (st : QuotesServiceState) (forceRefresh : Bool) (now : ℤ)
    (fileRead : Option UniverseQuoteMap) (freshId : ℕ) :
    QuotesServiceState × QuotesDecision :=
  if forceRefresh = false then
    match st.cacheEntry with
    | some entry =>
        if now < entry.expiresAt then (st, .servedMemory entry.quotes)
        else quotesAfterMemoryCheck st now fileRead freshId
    | none => quotesAfterMemoryCheck st now fileRead freshId
  else
    startQuotesRefresh st freshId

/-! ## Rate-limited fetch gate (src/server/polygonRateLimit.ts) -/

/-- `MIN_REQUEST_INTERVAL_MS = 12 * 1000`. -/
def MIN_REQUEST_INTERVAL_MS : ℤ := 12 * 1000

/-- The wait phase of `polygonRateLimitedFetch` (the read of `lastRequestAt`,
the elapsed computation and the `setTimeout`): a caller entering at time `now`
with the gate timestamp it READ being `lastRequestAt` proceeds at this time. -/
def rateLimitWakeTime (lastRequestAt now : ℤ) : ℤ :=
  if now - lastRequestAt < MIN_REQUEST_INTERVAL_MS
  then lastRequestAt + MIN_REQUEST_INTERVAL_MS
  else now

/-- One full sequential pass through `polygonRateLimitedFetch`: wait, then
`lastRequestAt = Date.now()` and the outbound request is issued. Returns
(new gate timestamp, request issue time); both equal the wake time. -/
def polygonRateLimitedFetch (lastRequestAt now : ℤ) : ℤ × ℤ :=
  let wake := rateLimitWakeTime lastRequestAt now
  (wake, wake)

/-- Two callers racing through the gate: both execute the read-and-wait phase
(reading the SAME `lastRequestAt` — neither has reached the write yet, as
happens when both enter before either `setTimeout` fires), then each timer
callback writes the timestamp and issues its request at its own wake time.
Returns the two request issue times. -/
def polygonGateRace (lastRequestAt now1 now2 : ℤ) : ℤ × ℤ :=
  (rateLimitWakeTime lastRequestAt now1, rateLimitWakeTime lastRequestAt now2)

/-! ## Per-ticker enrichment (src/lib/dataCache.ts `enrichAllTickers`, real mode) -/

/-- A value of the SEC CIK map (src/lib/dataCache.ts `SecCikMap`). -/
structure SecEntry where
  cik : String
  name : String
  deriving Repr, DecidableEq

/-- From src/lib/dataCache.ts `SecFacts`. -/
structure SecFacts where
  epsTtm : Option ℚ
  revenueTtm : Option ℚ
  revenueGrowthYoY : Option ℚ
  operatingMargin : Option ℚ
  sharesOutstanding : Option ℚ
  asOf : Option String
  deriving Repr, DecidableEq

/-- The all-null `SecFacts` literal emitted on an unresolved CIK or a failed
SEC fetch (src/lib/dataCache.ts lines 521 and 526). -/
def nullSecFacts : SecFacts :=
  { epsTtm := none, revenueTtm := none, revenueGrowthYoY := none
    operatingMargin := none, sharesOutstanding := none, asOf := none }

/-- A `QuoteMap` entry of src/lib/dataCache.ts. -/
structure DcQuote where
  price : ℚ
  asOf : String
  deriving Repr, DecidableEq

/-- The per-ticker upstream environment one loop iteration of
`enrichAllTickers` sees in real mode: `quotes[ticker]`, `secMap[ticker]`,
`cikFallback?.get(ticker)` (also `none` when the live map itself failed to
load), and the outcome of `fetchSecFacts` if a CIK resolves. -/
structure TickerEnv where
  quote : Option DcQuote
  secEntry : Option SecEntry
  fallbackCik : Option String
  fetchResult : Except JsThrown SecFacts
  deriving Repr

/-- One iteration of the `for (const ticker of tickers)` loop of
`enrichAllTickers` (src/lib/dataCache.ts lines 509–575), real mode: resolve the
CIK (`secEntry?.cik ?? cikFallback?.get(ticker) ?? null`), degrade to
`nullSecFacts` when it is unresolved or the facts fetch throws, derive
`peTtm` / `marketCap` / `ps`, score, and assemble the `EnrichedTicker`. -/
def enrichTickerReal (ticker : String) (env : TickerEnv) : EnrichedTicker :=
  let latestPrice := env.quote.map (·.price)
  let companyName := env.secEntry.map (·.name)
  let cik : Option String :=
    match env.secEntry with
    | some e => some e.cik
    | none => env.fallbackCik
  let facts : SecFacts :=
    match cik with
    | none => nullSecFacts
    | some _ =>
        match env.fetchResult with
        | .ok f => f
        | .error _ => nullSecFacts
  let peTtm : Option ℚ :=
    match latestPrice, facts.epsTtm with
    | some p, some e => if e = 0 then none else some (p / e)
    | _, _ => none
  let marketCap : Option ℚ :=
    match latestPrice, facts.sharesOutstanding with
    | some p, some s => some (p * s)
    | _, _ => none
  let ps : Option ℚ :=
    match marketCap, facts.revenueTtm with
    | some m, some r => if r = 0 then none else some (m / r)
    | _, _ => none
  let score := calculateValueScore
    { peTtm := peTtm, ps := ps
      revenueGrowthYoY := facts.revenueGrowthYoY
      operatingMargin := facts.operatingMargin }
  { ticker := ticker
    companyName := companyName
    latestPrice := latestPrice
    marketCap := marketCap
    peTtm := peTtm
    ps := ps
    epsTtm := facts.epsTtm
    revenueTtm := facts.revenueTtm
    revenueGrowthYoY := facts.revenueGrowthYoY
    operatingMargin := facts.operatingMargin
    valueScore := score.total
    scoreBreakdown := score.breakdown
    fundamentalsAsOf := facts.asOf }

/-- The whole real-mode batch: one record per ticker, in order; per-ticker
failures degrade to null fundamentals instead of aborting the loop. -/
def enrichAllTickersReal (env : String → TickerEnv) (tickers : List String) :
    List EnrichedTicker :=
  tickers.map (fun t => enrichTickerReal t (env t))

/-! ## Fundamentals fact normalizer (src/lib/dataCache.ts lines 317–396)

`FactPoint.start` / `FactPoint.end` hold date strings in the source; the
functions below only ever use them through
`asTimestamp(s) = new Date(s + 'T00:00:00.000Z').getTime()`, so they are
modelled directly as the parsed millisecond timestamps (`ℤ`). `end` is a Lean
keyword, hence the field name `end_`. The fields `filed`/`form` are never read
by the normalizer and are omitted. -/

/-- JavaScript `String.prototype.toUpperCase()` (ASCII uppercase, which is all
the fiscal-period tags use), written over the character list so the kernel can
evaluate it on concrete inputs. -/
def jsToUpperCase (s : String) : String := String.mk (s.data.map Char.toUpper)

structure FactPoint where
  start : Option ℤ
  end_ : Option ℤ
  fp : Option String
  fy : Option ℤ
  val : Option ℚ
  deriving Repr, DecidableEq, Inhabited

/-- From src/lib/dataCache.ts `hasValidValue`:
`typeof p.val === 'number' && Number.isFinite(p.val) && !!p.end`. -/
def hasValidValue (p : FactPoint) : Bool :=
  p.val.isSome && p.end_.isSome

/-- From src/lib/dataCache.ts `periodLengthDays` (the parsed timestamps are
always finite, so the `Number.isFinite` guard always passes). -/
def periodLengthDays (p : FactPoint) : Option ℚ :=
  match p.start, p.end_ with
  | some s, some e => some (((e - s : ℤ) : ℚ) / 86400000)
  | _, _ => none

/-- From src/lib/dataCache.ts `isStandaloneQuarter`. -/
def isStandaloneQuarter (p : FactPoint) : Bool :=
  match p.fp with
  | none => false
  | some s =>
      let fp := jsToUpperCase s
      if fp = "Q1" ∨ fp = "Q2" ∨ fp = "Q3" ∨ fp = "Q4" then
        match periodLengthDays p with
        | none => true
        | some days => decide (45 ≤ days ∧ days ≤ 120)
      else false

/-- The sort key `asTimestamp(p.end)`; every point the sort ever sees has
passed `hasValidValue`, so `end_` is present and the default is never used. -/
def endD (p : FactPoint) : ℤ := p.end_.getD 0

/-- The de-duplication key `` `${p.fy ?? ''}-${p.fp ?? ''}-${p.end}` ``,
modelled as the triple of its components. -/
def dupKey (p : FactPoint) : Option ℤ × Option String × ℤ :=
  (p.fy, p.fp, endD p)

/-- Stable insertion into a descending-by-`endD` list: the new point goes
before the first element whose end is not strictly greater, so later-arriving
equal-end points stay behind earlier ones. -/
def insertByEndDesc (p : FactPoint) : List FactPoint → List FactPoint
  | [] => [p]
  | q :: rest =>
      if endD p < endD q then q :: insertByEndDesc p rest
      else p :: q :: rest

/-- The JS `.sort((a, b) => asTimestamp(b.end) - asTimestamp(a.end))`:
`Array.prototype.sort` is stable and this comparator orders by `endD`
descending, which insertion sort with `insertByEndDesc` reproduces exactly. -/
def sortByEndDesc : List FactPoint → List FactPoint
  | [] => []
  | p :: rest => insertByEndDesc p (sortByEndDesc rest)

/-- The `seen`-set de-duplication loop of `computeTtmFromQuarters` without the
cut-off at four: keep the first occurrence of each `dupKey`. -/
def dedupSeen (seen : List (Option ℤ × Option String × ℤ)) :
    List FactPoint → List FactPoint
  | [] => []
  | p :: rest =>
      if dupKey p ∈ seen then dedupSeen seen rest
      else p :: dedupSeen (dupKey p :: seen) rest

/-- First-occurrence de-duplication in filter form (used for proofs):
keep the head, drop every later point with the same key, recurse. -/
def dedupByKey : List FactPoint → List FactPoint
  | [] => []
  | p :: rest =>
      p :: dedupByKey (rest.filter (fun q => dupKey q ≠ dupKey p))
  termination_by l => l.length
  decreasing_by
    simp only [List.length_cons]
    exact Nat.lt_succ_of_le (List.length_filter_le _ rest)

/-- The de-duplicating loop of src/lib/dataCache.ts `computeTtmFromQuarters`
(lines 360–368): skip seen keys, push unseen points, break once four points
are collected. `count` is `unique.length` so far. -/
def takeUniqueUpTo4 (seen : List (Option ℤ × Option String × ℤ)) (count : ℕ) :
    List FactPoint → List FactPoint
  | [] => []
  | p :: rest =>
      if dupKey p ∈ seen then takeUniqueUpTo4 seen count rest
      else if count + 1 = 4 then [p]
      else p :: takeUniqueUpTo4 (dupKey p :: seen) (count + 1) rest

/-- The four-point span in days:
`(asTimestamp(unique[0].end) - asTimestamp(unique[3].end)) / 86_400_000`. -/
def spanDaysOf (unique : List FactPoint) : ℚ :=
  (((endD (unique.getD 0 default) - endD (unique.getD 3 default)) : ℤ) : ℚ) / 86400000

/-- `unique.reduce((sum, p) => sum + p.val, 0)`. -/
def sumVals (unique : List FactPoint) : ℚ :=
  unique.foldl (fun s p => s + p.val.getD 0) 0

/-- From src/lib/dataCache.ts `computeTtmFromQuarters`. -/
def computeTtmFromQuarters (points : List FactPoint) : Option ℚ :=
  let quarters := sortByEndDesc
    (points.filter (fun p => isStandaloneQuarter p && hasValidValue p))
  let unique := takeUniqueUpTo4 [] 0 quarters
  if unique.length < 4 then none
  else if spanDaysOf unique > 430 then none
  else some (sumVals unique)

/-- From src/lib/dataCache.ts `computeAnnualFallback`. -/
def computeAnnualFallback (points : List FactPoint) : Option ℚ :=
  let annual := sortByEndDesc
    (points.filter (fun p => (p.fp.map jsToUpperCase = some "FY") && hasValidValue p))
  match annual with
  | [] => none
  | p :: _ => p.val

/-- From src/lib/dataCache.ts `computeTtm`:
`computeTtmFromQuarters(points) ?? computeAnnualFallback(points)`. -/
def computeTtm (points : List FactPoint) : Option ℚ :=
  match computeTtmFromQuarters points with
  | some v => some v
  | none => computeAnnualFallback points

/-- The selection pipeline in the order the spec sentence states it: filter to
qualifying standalone quarters, de-duplicate by (fiscal year, period tag,
period end), sort by period end descending, take the four most recent unique
points. -/
def ttmSpecSelect (points : List FactPoint) : List FactPoint :=
  (sortByEndDesc
    (dedupSeen []
      (points.filter (fun p => isStandaloneQuarter p && hasValidValue p)))).take 4

/-! ### Structural lemmas: the code's sort–then–dedup pipeline commutes. -/

/-- Descending order by `endD`, with ties allowed. -/
def SortedDesc (l : List FactPoint) : Prop :=
  l.Pairwise (fun a b => endD b ≤ endD a)

/-! ## Theorems -/

theorem jsRound_eq_floor (q : ℚ) : jsRound q = ⌊q + 1/2⌋ := by
  rw [jsRound, Rat.floor_def', Rat.floor_def]

/-! Basic facts about the clamped rounding helpers. -/

theorem jsRound_mono {a b : ℚ} (h : a ≤ b) : jsRound a ≤ jsRound b := by
  rw [jsRound_eq_floor, jsRound_eq_floor]
  exact Int.floor_le_floor (by linarith)

theorem jsRound_intCast (n : ℤ) : jsRound (n : ℚ) = n := by
  rw [jsRound_eq_floor, add_comm, Int.floor_add_int]
  norm_num

theorem clamp25_nonneg (v : ℚ) : 0 ≤ clamp25 v := by
  unfold clamp25
  rcases le_total (25 : ℤ) (max 0 (jsRound v)) with h | h
  · simp [min_eq_left h]
  · simp [min_eq_right h]

theorem clamp25_le (v : ℚ) : clamp25 v ≤ 25 := by
  unfold clamp25
  exact min_le_left _ _

theorem clamp25_mono {a b : ℚ} (h : a ≤ b) : clamp25 a ≤ clamp25 b := by
  unfold clamp25
  have := jsRound_mono h
  exact min_le_min le_rfl (max_le_max le_rfl this)

theorem calcPeScore_nonneg (pe : Option ℚ) : 0 ≤ calcPeScore pe := by
  unfold calcPeScore
  cases pe with
  | none => simp
  | some p =>
    by_cases h : p ≤ 0
    · simp [h]
    · simp [h, clamp25_nonneg]

theorem calcPeScore_le (pe : Option ℚ) : calcPeScore pe ≤ 25 := by
  unfold calcPeScore
  cases pe with
  | none => norm_num
  | some p =>
    by_cases h : p ≤ 0
    · simp [h]
    · simp [h, clamp25_le]

theorem calcPsScore_nonneg (ps : Option ℚ) : 0 ≤ calcPsScore ps := by
  unfold calcPsScore
  cases ps with
  | none => simp
  | some p => simp [clamp25_nonneg]

theorem calcPsScore_le (ps : Option ℚ) : calcPsScore ps ≤ 25 := by
  unfold calcPsScore
  cases ps with
  | none => norm_num
  | some p => simp [clamp25_le]

theorem calcRevenueGrowthScore_nonneg (g : Option ℚ) : 0 ≤ calcRevenueGrowthScore g := by
  unfold calcRevenueGrowthScore
  cases g with
  | none => simp
  | some v =>
    by_cases h : v ≤ 0
    · simp [h]
    · simp [h, clamp25_nonneg]

theorem calcRevenueGrowthScore_le (g : Option ℚ) : calcRevenueGrowthScore g ≤ 25 := by
  unfold calcRevenueGrowthScore
  cases g with
  | none => norm_num
  | some v =>
    by_cases h : v ≤ 0
    · simp [h]
    · simp [h, clamp25_le]

theorem calcOperatingMarginScore_nonneg (m : Option ℚ) : 0 ≤ calcOperatingMarginScore m := by
  unfold calcOperatingMarginScore
  cases m with
  | none => simp
  | some v =>
    by_cases h : v ≤ 0
    · simp [h]
    · simp [h, clamp25_nonneg]

theorem calcOperatingMarginScore_le (m : Option ℚ) : calcOperatingMarginScore m ≤ 25 := by
  unfold calcOperatingMarginScore
  cases m with
  | none => norm_num
  | some v =>
    by_cases h : v ≤ 0
    · simp [h]
    · simp [h, clamp25_le]

theorem clamp100_intCast_of_bounds {n : ℤ} (h0 : 0 ≤ n) (h100 : n ≤ 100) :
    clamp100 (n : ℚ) = n := by
  unfold clamp100
  rw [jsRound_intCast, max_eq_right h0, min_eq_right h100]

theorem total_eq_sum_aux (params : ScoreParams) :
    (calculateValueScore params).total =
      (calculateValueScore params).breakdown.peScore +
      (calculateValueScore params).breakdown.psScore +
      (calculateValueScore params).breakdown.revenueGrowthScore +
      (calculateValueScore params).breakdown.operatingMarginScore := by
  unfold calculateValueScore
  simp only
  apply clamp100_intCast_of_bounds
  · have := calcPeScore_nonneg params.peTtm
    have := calcPsScore_nonneg params.ps
    have := calcRevenueGrowthScore_nonneg params.revenueGrowthYoY
    have := calcOperatingMarginScore_nonneg params.operatingMargin
    linarith
  · have := calcPeScore_le params.peTtm
    have := calcPsScore_le params.ps
    have := calcRevenueGrowthScore_le params.revenueGrowthYoY
    have := calcOperatingMarginScore_le params.operatingMargin
    linarith

/-- C10: for every input, the total returned by `calculateValueScore` equals
exactly the sum of the four sub-scores of the returned breakdown: each sub-score
is an integer in `[0,25]`, so their sum lies in `[0,100]` and the outer
clamp-and-round never alters it. -/
theorem calculateValueScore_total_eq_sum (params : ScoreParams) :
    (calculateValueScore params).total =
      (calculateValueScore params).breakdown.peScore +
      (calculateValueScore params).breakdown.psScore +
      (calculateValueScore params).breakdown.revenueGrowthScore +
      (calculateValueScore params).breakdown.operatingMarginScore :=
  total_eq_sum_aux params

/-- C1: for every input record of four nullable metrics,
`calculateValueScore` returns a total in `[0,100]` and four sub-scores
each in `[0,25]` (all integers by type). -/
theorem calculateValueScore_bounds (params : ScoreParams) :
    0 ≤ (calculateValueScore params).total ∧ (calculateValueScore params).total ≤ 100 ∧
    0 ≤ (calculateValueScore params).breakdown.peScore ∧
    (calculateValueScore params).breakdown.peScore ≤ 25 ∧
    0 ≤ (calculateValueScore params).breakdown.psScore ∧
    (calculateValueScore params).breakdown.psScore ≤ 25 ∧
    0 ≤ (calculateValueScore params).breakdown.revenueGrowthScore ∧
    (calculateValueScore params).breakdown.revenueGrowthScore ≤ 25 ∧
    0 ≤ (calculateValueScore params).breakdown.operatingMarginScore ∧
    (calculateValueScore params).breakdown.operatingMarginScore ≤ 25 := by
  have hpe0 := calcPeScore_nonneg params.peTtm
  have hpe1 := calcPeScore_le params.peTtm
  have hps0 := calcPsScore_nonneg params.ps
  have hps1 := calcPsScore_le params.ps
  have hg0 := calcRevenueGrowthScore_nonneg params.revenueGrowthYoY
  have hg1 := calcRevenueGrowthScore_le params.revenueGrowthYoY
  have hm0 := calcOperatingMarginScore_nonneg params.operatingMargin
  have hm1 := calcOperatingMarginScore_le params.operatingMargin
  have htot := total_eq_sum_aux params
  refine ⟨?_, ?_, hpe0, hpe1, hps0, hps1, hg0, hg1, hm0, hm1⟩ <;>
    · rw [htot]
      unfold calculateValueScore
      simp only
      linarith

/-! ### C5: the `calcPeScore` point values and monotonicity -/

/-- C5 counterexample: the claim asserts `calcPeScore` is non-increasing for
ALL `pe1 ≤ pe2`; it fails across the sign boundary: `calcPeScore(-1) = 0` while
`calcPeScore(10) = 25`, so the score strictly increases from `pe = -1` to `pe = 10`. -/
theorem calcPeScore_not_globally_antitone :
    (-1 : ℚ) ≤ 10 ∧ calcPeScore (some (-1)) < calcPeScore (some 10) := by
  constructor
  · norm_num
  · have h1 : calcPeScore (some (-1)) = 0 := by
      rw [calcPeScore]; norm_num
    have h2 : calcPeScore (some 10) = 25 := by
      rw [calcPeScore]; norm_num [clamp25, jsRound_eq_floor]
    rw [h1, h2]; norm_num

/-- C5 (amended): `calcPeScore(10) = 25`, `calcPeScore(40) = 0`,
`calcPeScore(25) = 13 ≈ 12` (the pre-rounding value is `12.5`, which JS
`Math.round` takes to `13`), `calcPeScore(null) = 0`, `calcPeScore(pe) = 0`
for every `pe ≤ 0`, and the score is non-increasing as P/E increases over
POSITIVE P/E values (for `0 < pe1 ≤ pe2`, `calcPeScore pe1 ≥ calcPeScore pe2`). -/
theorem calcPeScore_spec :
    calcPeScore (some 10) = 25 ∧
    calcPeScore (some 40) = 0 ∧
    (calcPeScore (some 25) = 13 ∧ |calcPeScore (some 25) - 12| ≤ 1) ∧
    calcPeScore none = 0 ∧
    (∀ pe : ℚ, pe ≤ 0 → calcPeScore (some pe) = 0) ∧
    (∀ pe1 pe2 : ℚ, 0 < pe1 → pe1 ≤ pe2 →
      calcPeScore (some pe2) ≤ calcPeScore (some pe1)) := by
  have h25 : calcPeScore (some 25) = 13 := by
    rw [calcPeScore]; norm_num [clamp25, jsRound_eq_floor]
  refine ⟨?_, ?_, ⟨h25, ?_⟩, rfl, ?_, ?_⟩
  · rw [calcPeScore]; norm_num [clamp25, jsRound_eq_floor]
  · rw [calcPeScore]; norm_num [clamp25, jsRound_eq_floor]
  · rw [h25]; norm_num
  · intro pe hpe
    rw [calcPeScore]
    simp [hpe]
  · intro pe1 pe2 h1 h12
    rw [calcPeScore, calcPeScore]
    have n1 : ¬ pe1 ≤ 0 := not_le.mpr h1
    have n2 : ¬ pe2 ≤ 0 := not_le.mpr (lt_of_lt_of_le h1 h12)
    simp only [n1, n2, if_false]
    exact clamp25_mono (by linarith)

/-- C5 witness: instantiates the amended theorem at concrete inputs,
discharging its hypotheses. -/
theorem calcPeScore_spec_witness :
    calcPeScore (some (-3)) = 0 ∧ calcPeScore (some 20) ≤ calcPeScore (some 15) :=
  ⟨calcPeScore_spec.2.2.2.2.1 (-3) (by decide),
   calcPeScore_spec.2.2.2.2.2 15 20 (by decide) (by decide)⟩

/-! ### C9: the two scoring implementations diverge -/

/-- C9: the two scoring implementations are not extensionally equal:
on the input with all other metrics null and `revenueGrowthYoY = 12`
(strictly between 0 and 20), `src/lib/valueScore.ts` (growth divisor 20)
yields growth sub-score 15 and total 15, while
`src/scoring/calculateValueScore.ts` (growth divisor 30) yields growth
sub-score 10 and total 10. -/
theorem scoring_implementations_differ :
    (0 : ℚ) < 12 ∧ (12 : ℚ) < 20 ∧
    (calculateValueScore ⟨none, none, some 12, none⟩).breakdown.revenueGrowthScore = 15 ∧
    (scoringCalculateValueScore ⟨none, none, none, none, none, some 12, none⟩).breakdown.growthScore = 10 ∧
    (calculateValueScore ⟨none, none, some 12, none⟩).total = 15 ∧
    (scoringCalculateValueScore ⟨none, none, none, none, none, some 12, none⟩).total = 10 ∧
    (calculateValueScore ⟨none, none, some 12, none⟩).breakdown.revenueGrowthScore ≠
      (scoringCalculateValueScore ⟨none, none, none, none, none, some 12, none⟩).breakdown.growthScore ∧
    (calculateValueScore ⟨none, none, some 12, none⟩).total ≠
      (scoringCalculateValueScore ⟨none, none, none, none, none, some 12, none⟩).total := by
  have hg : calcRevenueGrowthScore (some 12) = 15 := by
    rw [calcRevenueGrowthScore]; norm_num [clamp25, jsRound_eq_floor]
  have hg2 : clampComponent (max 0 ((12 : ℚ)) / 30 * 25) = 10 := by
    norm_num [clampComponent, jsRound_eq_floor]
  have hps2 : clampComponent (25 * (1 - ((10 : ℚ) - 1) / 9)) = 0 := by
    norm_num [clampComponent, jsRound_eq_floor]
  have hlib : calculateValueScore ⟨none, none, some 12, none⟩ =
      ⟨15, 0, 0, 15, 0⟩ := by
    unfold calculateValueScore
    rw [hg]
    simp only [calcPeScore, calcPsScore, calcOperatingMarginScore]
    norm_num [clamp100, jsRound_eq_floor]
  have hsc : scoringCalculateValueScore ⟨none, none, none, none, none, some 12, none⟩ =
      ⟨10, 0, 0, 10, 0⟩ := by
    unfold scoringCalculateValueScore
    simp only [Option.getD]
    rw [show (max 0 (12:ℚ)) = 12 from by norm_num] at hg2 ⊢
    rw [hg2, hps2]
    norm_num [clampComponent, clampTotal, jsRound_eq_floor]
  rw [hlib, hsc]
  norm_num

/-! ### C2: pipeline-fatal failure preserves the cached data -/

/-- C2 counterexample: the claim asserts a non-empty error message on every
pipeline-fatal failure, but an escaping `Error` whose `message` is the empty
string (e.g. `throw new Error('')`) leaves `state.error = ''`: the cache is in
status `error` with an EMPTY message. -/
theorem runPreload_empty_error_message :
    (runPreload { status := .ready, tickers := [], lastUpdated := some "2024-01-02T00:00:00.000Z", error := none }
        (.error (.jsError "")) "2024-01-03T00:00:00.000Z").status = .error ∧
    (runPreload { status := .ready, tickers := [], lastUpdated := some "2024-01-02T00:00:00.000Z", error := none }
        (.error (.jsError "")) "2024-01-03T00:00:00.000Z").error = some "" := by
  exact ⟨rfl, rfl⟩

/-- C2 (amended): whenever a preload run fails with an escaping exception,
the cache transitions to status `error`, the error message is the exception's
own message (`'Preload failed.'` for a non-`Error` value) — hence non-empty
whenever that message is non-empty — and both the previously cached tickers
collection and `lastUpdated` are left exactly as they were before the refresh
attempt. -/
theorem runPreload_failure_preserves_cache (st : CacheState) (err : JsThrown) (now : String) :
    (runPreload st (.error err) now).status = .error ∧
    (runPreload st (.error err) now).error = some (preloadErrorMessage err) ∧
    (runPreload st (.error err) now).tickers = st.tickers ∧
    (runPreload st (.error err) now).lastUpdated = st.lastUpdated ∧
    (preloadErrorMessage err ≠ "" →
      ∀ m, (runPreload st (.error err) now).error = some m → m ≠ "") := by
  refine ⟨rfl, rfl, rfl, rfl, ?_⟩
  intro hne m hm
  have h0 : (runPreload st (.error err) now).error = some (preloadErrorMessage err) := rfl
  rw [h0] at hm
  cases Option.some.inj hm
  exact hne

/-- C2 witness: instantiates the amended theorem at a concrete state and a
concrete escaping exception. -/
theorem runPreload_failure_preserves_cache_witness :
    (runPreload { status := .loading, tickers := [], lastUpdated := some "2024-01-02T00:00:00.000Z", error := none }
        (.error (.jsError "SEC facts fetch failed")) "2024-01-03T00:00:00.000Z").status = .error ∧
    (runPreload { status := .loading, tickers := [], lastUpdated := some "2024-01-02T00:00:00.000Z", error := none }
        (.error (.jsError "SEC facts fetch failed")) "2024-01-03T00:00:00.000Z").error =
      some (preloadErrorMessage (.jsError "SEC facts fetch failed")) ∧
    (runPreload { status := .loading, tickers := [], lastUpdated := some "2024-01-02T00:00:00.000Z", error := none }
        (.error (.jsError "SEC facts fetch failed")) "2024-01-03T00:00:00.000Z").tickers = [] ∧
    (runPreload { status := .loading, tickers := [], lastUpdated := some "2024-01-02T00:00:00.000Z", error := none }
        (.error (.jsError "SEC facts fetch failed")) "2024-01-03T00:00:00.000Z").lastUpdated =
      some "2024-01-02T00:00:00.000Z" ∧
    ∀ m, (runPreload { status := .loading, tickers := [], lastUpdated := some "2024-01-02T00:00:00.000Z", error := none }
        (.error (.jsError "SEC facts fetch failed")) "2024-01-03T00:00:00.000Z").error = some m → m ≠ "" := by
  have h := runPreload_failure_preserves_cache
    { status := .loading, tickers := [], lastUpdated := some "2024-01-02T00:00:00.000Z", error := none }
    (.jsError "SEC facts fetch failed") "2024-01-03T00:00:00.000Z"
  exact ⟨h.1, h.2.1, h.2.2.1, h.2.2.2.1, h.2.2.2.2 (by decide)⟩

theorem orchStep_preserves_inv {a b : OrchState} (h : OrchStep a b) (ha : OrchInv a) :
    OrchInv b := by
  cases h with
  | trigger force freshId =>
    unfold triggerPreload
    by_cases hc : force = false ∧ a.cache.status = .ready
    · simpa [hc] using ha
    · simp only [hc, if_false]
      cases hin : a.preloadInFlight with
      | some id => simpa [hin] using ha
      | none =>
        intro i hi
        simp [hin, runPreloadStart]
  | complete id outcome now h =>
    intro i hi
    simp [completePreload] at hi

theorem orchReachable_inv {st : OrchState} (h : OrchReachable st) : OrchInv st := by
  induction h with
  | refl => intro i hi; simp [orchInit] at hi
  | tail _ hstep ih => exact orchStep_preserves_inv hstep ih

/-- C3: in every reachable orchestrator state, (a) if the cache is `ready`
and `forceRefresh` is false, `triggerPreload` is a pure no-op returning an
already-resolved promise (no state change, no run started); and (b) whenever a
preload is in flight, every call — whatever `forceRefresh` it passes — returns
that same pending run and changes nothing, so a second concurrent call never
starts a second pipeline run. -/
theorem triggerPreload_single_flight (st : OrchState) (hreach : OrchReachable st) :
    (∀ freshId, st.cache.status = .ready →
      triggerPreload st false freshId = (st, .resolvedNoop)) ∧
    (∀ force freshId id, st.preloadInFlight = some id →
      triggerPreload st force freshId = (st, .joined id)) := by
  constructor
  · intro freshId hready
    unfold triggerPreload
    simp [hready]
  · intro force freshId id hin
    have hload : st.cache.status = .loading := orchReachable_inv hreach id hin
    unfold triggerPreload
    have hcond : ¬ (force = false ∧ st.cache.status = .ready) := by
      rintro ⟨-, hr⟩
      rw [hload] at hr
      exact CacheStatus.noConfusion hr
    simp [hcond, hin]

/-- C3 witness: runs the machine from boot: one trigger starts run 0 (state
`loading`, handle set); a forced concurrent call joins run 0 instead of starting
a second run; after run 0 completes successfully the state is `ready` and a
non-forced call is the resolved no-op. -/
theorem triggerPreload_single_flight_witness :
    triggerPreload
        { cache := { status := .loading, tickers := [], lastUpdated := none, error := none }
          preloadInFlight := some 0 } true 1 =
      ({ cache := { status := .loading, tickers := [], lastUpdated := none, error := none }
         preloadInFlight := some 0 }, .joined 0) ∧
    triggerPreload
        { cache := { status := .ready, tickers := [], lastUpdated := some "T", error := none }
          preloadInFlight := none } false 2 =
      ({ cache := { status := .ready, tickers := [], lastUpdated := some "T", error := none }
         preloadInFlight := none }, .resolvedNoop) := by
  have h1 : OrchReachable
      { cache := { status := .loading, tickers := [], lastUpdated := none, error := none }
        preloadInFlight := some 0 } := by
    have hs : (triggerPreload orchInit false 0).1 =
        { cache := { status := .loading, tickers := [], lastUpdated := none, error := none }
          preloadInFlight := some 0 } := by
      simp [triggerPreload, orchInit, runPreloadStart]
    exact hs ▸ Relation.ReflTransGen.single (OrchStep.trigger orchInit false 0)
  have h2 : OrchReachable
      { cache := { status := .ready, tickers := [], lastUpdated := some "T", error := none }
        preloadInFlight := none } := by
    have hc : completePreload
        { cache := { status := .loading, tickers := [], lastUpdated := none, error := none }
          preloadInFlight := some 0 } (.ok []) "T" =
        { cache := { status := .ready, tickers := [], lastUpdated := some "T", error := none }
          preloadInFlight := none } := by
      simp [completePreload, runPreloadFinish]
    exact hc ▸ Relation.ReflTransGen.tail h1
      (OrchStep.complete _ 0 (.ok []) "T" rfl)
  exact ⟨(triggerPreload_single_flight _ h1).2 true 1 0 rfl,
         (triggerPreload_single_flight _ h2).1 2 rfl⟩

/-- C6 counterexample: with refresh run 7 in flight, a `forceRefresh=true`
call does NOT join run 7: it starts a new run 8 and overwrites the in-flight
handle, so two `refreshQuotes` runs are in flight concurrently. -/
theorem getUniverseQuotes_force_starts_second_refresh :
    ({ cacheEntry := none, inFlightRefresh := some 7 } : QuotesServiceState).inFlightRefresh
        = some 7 ∧
    getUniverseQuotes { cacheEntry := none, inFlightRefresh := some 7 } true 0 none 8 =
      ({ cacheEntry := none, inFlightRefresh := some 8 }, .startedRefresh 8) ∧
    (getUniverseQuotes { cacheEntry := none, inFlightRefresh := some 7 } true 0 none 8).2 ≠
      .joinedInFlight 7 := by
  refine ⟨rfl, rfl, ?_⟩
  intro h
  exact QuotesDecision.noConfusion h

/-- C6 (amended): a `forceRefresh=true` call always starts a fresh
`refreshQuotes` run and stores its handle, regardless of any run already in
flight (which keeps running detached — the code does NOT join it); only
`forceRefresh=false` callers join an in-flight run (when the memory entry is
absent or stale). -/
theorem getUniverseQuotes_spec (st : QuotesServiceState) (now : ℤ)
    (fileRead : Option UniverseQuoteMap) (freshId : ℕ) :
    (getUniverseQuotes st true now fileRead freshId =
      ({ st with inFlightRefresh := some freshId }, .startedRefresh freshId)) ∧
    (∀ id, st.inFlightRefresh = some id →
      (∀ entry, st.cacheEntry = some entry → entry.expiresAt ≤ now) →
      getUniverseQuotes st false now fileRead freshId = (st, .joinedInFlight id)) := by
  constructor
  · simp [getUniverseQuotes, startQuotesRefresh]
  · intro id hin hstale
    unfold getUniverseQuotes
    cases hc : st.cacheEntry with
    | none => simp [quotesAfterMemoryCheck, hin]
    | some entry =>
      have : ¬ now < entry.expiresAt := not_lt.mpr (hstale entry hc)
      simp [this, quotesAfterMemoryCheck, hin]

/-- C6 witness: instantiates the amended theorem: a forced call with run 3
in flight starts run 9; a non-forced call with run 3 in flight and no memory
entry joins run 3. -/
theorem getUniverseQuotes_spec_witness :
    getUniverseQuotes { cacheEntry := none, inFlightRefresh := some 3 } true 50 none 9 =
      ({ cacheEntry := none, inFlightRefresh := some 9 }, .startedRefresh 9) ∧
    getUniverseQuotes { cacheEntry := none, inFlightRefresh := some 3 } false 50 none 9 =
      ({ cacheEntry := none, inFlightRefresh := some 3 }, .joinedInFlight 3) := by
  have h := getUniverseQuotes_spec { cacheEntry := none, inFlightRefresh := some 3 } 50 none 9
  exact ⟨h.1, h.2 3 rfl (by intro e he; exact Option.noConfusion he)⟩

/-- C8: the gate does NOT serialize concurrent callers. Two callers that
both enter `polygonRateLimitedFetch` at `t = 0` (with `lastRequestAt = 0`)
before either timer fires both wake at `t = 12000` and issue their outbound
requests 0 ms apart — less than the required 12 s. Sequential callers, by
contrast, are correctly spaced (see `polygonRateLimitedFetch_sequential_spacing`). -/
theorem polygonGateRace_breaks_min_interval :
    polygonGateRace 0 0 0 = (12000, 12000) ∧
    (polygonGateRace 0 0 0).2 - (polygonGateRace 0 0 0).1 < MIN_REQUEST_INTERVAL_MS := by
  constructor
  · rfl
  · decide

/-- The positive half of the gate contract: when the second caller reads the
timestamp written by the first (sequential, non-overlapping acquires), the two
requests are at least `MIN_REQUEST_INTERVAL_MS` apart. -/
theorem polygonRateLimitedFetch_sequential_spacing (last t1 t2 : ℤ) :
    (polygonRateLimitedFetch (polygonRateLimitedFetch last t1).1 t2).2 -
      (polygonRateLimitedFetch last t1).2 ≥ MIN_REQUEST_INTERVAL_MS := by
  unfold polygonRateLimitedFetch rateLimitWakeTime MIN_REQUEST_INTERVAL_MS
  simp only
  split
  · omega
  · omega

theorem calculateValueScore_all_null :
    calculateValueScore { peTtm := none, ps := none, revenueGrowthYoY := none, operatingMargin := none } =
      { total := 0
        breakdown := { peScore := 0, psScore := 0, revenueGrowthScore := 0, operatingMarginScore := 0 } } := by
  unfold calculateValueScore
  simp only [calcPeScore, calcPsScore, calcRevenueGrowthScore, calcOperatingMarginScore]
  have : clamp100 ((0 : ℤ) : ℚ) = 0 := clamp100_intCast_of_bounds le_rfl (by norm_num)
  norm_num at this ⊢
  exact this

/-- C7: in real mode, a ticker whose CIK resolves from neither the seed map
nor the live fallback map yields an `EnrichedTicker` with every fundamentals
field null, `marketCap`/`peTtm`/`ps` null, `valueScore = 0` and all four
sub-scores 0 (whatever the facts fetch would have returned); and the batch
still emits one record per ticker rather than aborting. -/
theorem enrichAllTickers_unresolved_cik (env : String → TickerEnv)
    (tickers : List String) :
    (enrichAllTickersReal env tickers).length = tickers.length ∧
    ∀ t ∈ tickers, (env t).secEntry = none → (env t).fallbackCik = none →
      enrichTickerReal t (env t) =
        { ticker := t
          companyName := none
          latestPrice := (env t).quote.map (·.price)
          marketCap := none
          peTtm := none
          ps := none
          epsTtm := none
          revenueTtm := none
          revenueGrowthYoY := none
          operatingMargin := none
          valueScore := 0
          scoreBreakdown := { peScore := 0, psScore := 0, revenueGrowthScore := 0, operatingMarginScore := 0 }
          fundamentalsAsOf := none } ∧
      ({ ticker := t
         companyName := none
         latestPrice := (env t).quote.map (·.price)
         marketCap := none
         peTtm := none
         ps := none
         epsTtm := none
         revenueTtm := none
         revenueGrowthYoY := none
         operatingMargin := none
         valueScore := 0
         scoreBreakdown := { peScore := 0, psScore := 0, revenueGrowthScore := 0, operatingMarginScore := 0 }
         fundamentalsAsOf := none } : EnrichedTicker) ∈ enrichAllTickersReal env tickers := by
  refine ⟨List.length_map _ _, ?_⟩
  intro t ht hsec hcik
  have hrec : enrichTickerReal t (env t) =
      { ticker := t
        companyName := none
        latestPrice := (env t).quote.map (·.price)
        marketCap := none
        peTtm := none
        ps := none
        epsTtm := none
        revenueTtm := none
        revenueGrowthYoY := none
        operatingMargin := none
        valueScore := 0
        scoreBreakdown := { peScore := 0, psScore := 0, revenueGrowthScore := 0, operatingMarginScore := 0 }
        fundamentalsAsOf := none } := by
    unfold enrichTickerReal
    rw [hsec, hcik]
    simp only [nullSecFacts]
    have hscore := calculateValueScore_all_null
    cases hq : (env t).quote with
    | none => simp [hq, hscore]
    | some q => simp [hq, hscore]
  refine ⟨hrec, ?_⟩
  rw [← hrec]
  exact List.mem_map_of_mem _ ht

/-- C7 witness: a concrete two-ticker batch where the second ticker's CIK
is unresolved: the batch has two records and contains the all-null record for
that ticker (with its quote's price preserved). -/
theorem enrichAllTickers_unresolved_cik_witness :
    (enrichAllTickersReal
        (fun t => if t = "ZZZQ"
          then { quote := some { price := 100, asOf := "2024-01-02" }
                 secEntry := none, fallbackCik := none
                 fetchResult := .error .nonError }
          else { quote := none
                 secEntry := some { cik := "0000320193", name := "Apple Inc." }
                 fallbackCik := none, fetchResult := .error .nonError })
        ["AAPL", "ZZZQ"]).length = 2 ∧
    enrichTickerReal "ZZZQ"
        { quote := some { price := 100, asOf := "2024-01-02" }
          secEntry := none, fallbackCik := none, fetchResult := .error .nonError } =
      { ticker := "ZZZQ"
        companyName := none
        latestPrice := some 100
        marketCap := none
        peTtm := none
        ps := none
        epsTtm := none
        revenueTtm := none
        revenueGrowthYoY := none
        operatingMargin := none
        valueScore := 0
        scoreBreakdown := { peScore := 0, psScore := 0, revenueGrowthScore := 0, operatingMarginScore := 0 }
        fundamentalsAsOf := none } := by
  have h := enrichAllTickers_unresolved_cik
    (fun t => if t = "ZZZQ"
      then { quote := some { price := 100, asOf := "2024-01-02" }
             secEntry := none, fallbackCik := none
             fetchResult := .error .nonError }
      else { quote := none
             secEntry := some { cik := "0000320193", name := "Apple Inc." }
             fallbackCik := none, fetchResult := .error .nonError })
    ["AAPL", "ZZZQ"]
  refine ⟨h.1, ?_⟩
  have h2 := (h.2 "ZZZQ" (by simp) (by simp) (by simp)).1
  simpa using h2

theorem dupKey_eq_endD {p q : FactPoint} (h : dupKey q = dupKey p) : endD q = endD p := by
  have := congrArg (fun k => k.2.2) h
  simpa [dupKey] using this

theorem insertByEndDesc_cons (p q : FactPoint) (rest : List FactPoint) :
    insertByEndDesc p (q :: rest) =
      if endD p < endD q then q :: insertByEndDesc p rest else p :: q :: rest := rfl

theorem mem_insertByEndDesc {x p : FactPoint} :
    ∀ {l : List FactPoint}, x ∈ insertByEndDesc p l ↔ x = p ∨ x ∈ l := by
  intro l
  induction l with
  | nil => simp [insertByEndDesc]
  | cons q rest ih =>
    rw [insertByEndDesc_cons]
    by_cases h : endD p < endD q
    · rw [if_pos h]
      simp only [List.mem_cons, ih]
      tauto
    · rw [if_neg h]
      simp only [List.mem_cons]

theorem sortedDesc_insert {p : FactPoint} :
    ∀ {l : List FactPoint}, SortedDesc l → SortedDesc (insertByEndDesc p l) := by
  intro l
  induction l with
  | nil => intro _; simp [insertByEndDesc, SortedDesc]
  | cons q rest ih =>
    intro hs
    rw [SortedDesc, List.pairwise_cons] at hs
    obtain ⟨hq, hrest⟩ := hs
    rw [insertByEndDesc_cons]
    by_cases h : endD p < endD q
    · rw [if_pos h, SortedDesc, List.pairwise_cons]
      refine ⟨?_, ih hrest⟩
      intro y hy
      rcases mem_insertByEndDesc.mp hy with rfl | hy
      · exact le_of_lt h
      · exact hq y hy
    · rw [if_neg h, SortedDesc, List.pairwise_cons]
      constructor
      · intro y hy
        rcases List.mem_cons.mp hy with rfl | hy
        · exact not_lt.mp h
        · exact le_trans (hq y hy) (not_lt.mp h)
      · rw [List.pairwise_cons]
        exact ⟨hq, hrest⟩

theorem sortedDesc_sort (l : List FactPoint) : SortedDesc (sortByEndDesc l) := by
  induction l with
  | nil => simp [sortByEndDesc, SortedDesc]
  | cons p rest ih => exact sortedDesc_insert ih

theorem insertByEndDesc_eq_cons {p : FactPoint} {l : List FactPoint}
    (h : ∀ y ∈ l, ¬ endD p < endD y) : insertByEndDesc p l = p :: l := by
  cases l with
  | nil => rfl
  | cons q rest =>
    rw [insertByEndDesc_cons, if_neg (h q (List.mem_cons_self q rest))]

theorem mem_dedupByKey {x : FactPoint} :
    ∀ {l : List FactPoint}, x ∈ dedupByKey l → x ∈ l := by
  intro l
  induction l using dedupByKey.induct with
  | case1 => intro h; simp [dedupByKey] at h
  | case2 p rest ih =>
    intro h
    rw [dedupByKey] at h
    rcases List.mem_cons.mp h with rfl | h
    · exact List.mem_cons_self _ _
    · exact List.mem_cons_of_mem _ (List.mem_of_mem_filter (ih h))

theorem filter_insert_of_pos {P : FactPoint → Bool} {p : FactPoint}
    (hp : P p = true) :
    ∀ {l : List FactPoint}, SortedDesc l →
      (insertByEndDesc p l).filter P = insertByEndDesc p (l.filter P) := by
  intro l
  induction l with
  | nil => intro _; simp [insertByEndDesc, List.filter, hp]
  | cons q rest ih =>
    intro hs
    rw [SortedDesc, List.pairwise_cons] at hs
    obtain ⟨hq, hrest⟩ := hs
    rw [insertByEndDesc_cons]
    by_cases h : endD p < endD q
    · rw [if_pos h, List.filter_cons, List.filter_cons]
      cases hPq : P q with
      | true =>
        rw [if_pos rfl, if_pos rfl, ih hrest, insertByEndDesc_cons, if_pos h]
      | false =>
        rw [if_neg (by simp), if_neg (by simp), ih hrest]
    · rw [if_neg h, List.filter_cons, if_pos hp]
      have hall : ∀ y ∈ (q :: rest).filter P, ¬ endD p < endD y := by
        intro y hy
        have hy' := List.mem_of_mem_filter hy
        rcases List.mem_cons.mp hy' with rfl | hy'
        · exact h
        · intro hlt
          exact h (lt_of_lt_of_le hlt (hq y hy'))
      rw [insertByEndDesc_eq_cons hall]

theorem filter_insert_of_neg {P : FactPoint → Bool} {p : FactPoint}
    (hp : P p = false) :
    ∀ {l : List FactPoint}, (insertByEndDesc p l).filter P = l.filter P := by
  intro l
  induction l with
  | nil => simp [insertByEndDesc, List.filter, hp]
  | cons q rest ih =>
    rw [insertByEndDesc_cons]
    by_cases h : endD p < endD q
    · rw [if_pos h, List.filter_cons, List.filter_cons, ih]
    · rw [if_neg h, List.filter_cons, if_neg (by simp [hp])]

theorem filter_sort_comm (P : FactPoint → Bool) :
    ∀ (l : List FactPoint), (sortByEndDesc l).filter P = sortByEndDesc (l.filter P) := by
  intro l
  induction l with
  | nil => rfl
  | cons p rest ih =>
    rw [sortByEndDesc, List.filter_cons]
    cases hPp : P p with
    | true =>
      rw [if_pos rfl, sortByEndDesc, ← ih]
      exact filter_insert_of_pos hPp (sortedDesc_sort rest)
    | false =>
      rw [if_neg (by simp), ← ih]
      exact filter_insert_of_neg hPp

theorem dedupByKey_nil : dedupByKey [] = [] := by
  rw [dedupByKey]

theorem dedupByKey_cons (p : FactPoint) (rest : List FactPoint) :
    dedupByKey (p :: rest) =
      p :: dedupByKey (rest.filter (fun q => decide (dupKey q ≠ dupKey p))) := by
  rw [dedupByKey]

theorem dedupSeen_eq_dedupByKey (seen : List (Option ℤ × Option String × ℤ)) :
    ∀ (l : List FactPoint),
      dedupSeen seen l = dedupByKey (l.filter (fun p => decide (dupKey p ∉ seen))) := by
  intro l
  induction l generalizing seen with
  | nil => rw [dedupSeen, List.filter_nil, dedupByKey_nil]
  | cons p rest ih =>
    rw [dedupSeen, List.filter_cons]
    by_cases h : dupKey p ∈ seen
    · rw [if_pos h, if_neg (by simp [h]), ih]
    · rw [if_neg h, if_pos (by simp [h]), dedupByKey_cons, ih (dupKey p :: seen)]
      congr 1
      rw [List.filter_filter]
      congr 1
      apply List.filter_congr
      intro q hq
      simp only [List.mem_cons, not_or, decide_not]
      cases hqk : decide (dupKey q = dupKey p) <;>
        cases hqs : decide (dupKey q ∈ seen) <;>
          simp_all

theorem dedupSeen_nil_eq (l : List FactPoint) : dedupSeen [] l = dedupByKey l := by
  rw [dedupSeen_eq_dedupByKey]
  congr 1
  simp

theorem filter_comm_key (a b : FactPoint) (l : List FactPoint) :
    (l.filter (fun q => decide (dupKey q ≠ dupKey a))).filter
        (fun q => decide (dupKey q ≠ dupKey b)) =
      (l.filter (fun q => decide (dupKey q ≠ dupKey b))).filter
        (fun q => decide (dupKey q ≠ dupKey a)) := by
  rw [List.filter_filter, List.filter_filter]
  apply List.filter_congr
  intro q hq
  exact Bool.and_comm _ _

theorem dedup_insert_sorted (p : FactPoint) :
    ∀ (n : ℕ) (l : List FactPoint), l.length ≤ n → SortedDesc l →
      dedupByKey (insertByEndDesc p l) =
        insertByEndDesc p
          (dedupByKey (l.filter (fun q => decide (dupKey q ≠ dupKey p)))) := by
  intro n
  induction n with
  | zero =>
    intro l hl _
    rw [Nat.le_zero] at hl
    rw [List.length_eq_zero] at hl
    subst hl
    simp [insertByEndDesc, dedupByKey_nil, dedupByKey_cons]
  | succ n ih =>
    intro l hl hs
    cases l with
    | nil => simp [insertByEndDesc, dedupByKey_nil, dedupByKey_cons]
    | cons q s =>
      rw [SortedDesc, List.pairwise_cons] at hs
      obtain ⟨hq, hsorted⟩ := hs
      rw [insertByEndDesc_cons]
      by_cases h : endD p < endD q
      · have hkq : dupKey p ≠ dupKey q := by
          intro hk
          rw [dupKey_eq_endD hk] at h
          exact lt_irrefl _ h
        rw [if_pos h, dedupByKey_cons]
        rw [filter_insert_of_pos (by simp [hkq]) hsorted]
        have hlen : (s.filter (fun r => decide (dupKey r ≠ dupKey q))).length ≤ n := by
          calc (s.filter (fun r => decide (dupKey r ≠ dupKey q))).length
              ≤ s.length := List.length_filter_le _ _
            _ ≤ n := by rw [List.length_cons] at hl; omega
        rw [ih _ hlen ((List.Pairwise.filter _ hsorted : _))]
        rw [List.filter_cons, if_pos (by simp [Ne.symm hkq]), dedupByKey_cons]
        rw [insertByEndDesc_cons, if_pos h]
        rw [filter_comm_key]
      · rw [if_neg h, dedupByKey_cons]
        have hmem : ∀ y ∈ dedupByKey
            ((q :: s).filter (fun r => decide (dupKey r ≠ dupKey p))),
            ¬ endD p < endD y := by
          intro y hy
          have hy2 := List.mem_of_mem_filter (mem_dedupByKey hy)
          rcases List.mem_cons.mp hy2 with rfl | hy2
          · exact h
          · intro hlt
            exact h (lt_of_lt_of_le hlt (hq y hy2))
        rw [insertByEndDesc_eq_cons hmem]

theorem dedup_sort_comm :
    ∀ (n : ℕ) (l : List FactPoint), l.length ≤ n →
      dedupByKey (sortByEndDesc l) = sortByEndDesc (dedupByKey l) := by
  intro n
  induction n with
  | zero =>
    intro l hl
    rw [Nat.le_zero, List.length_eq_zero] at hl
    subst hl
    simp [sortByEndDesc, dedupByKey_nil]
  | succ n ih =>
    intro l hl
    cases l with
    | nil => simp [sortByEndDesc, dedupByKey_nil]
    | cons p rest =>
      rw [sortByEndDesc]
      rw [dedup_insert_sorted p (sortByEndDesc rest).length _ le_rfl (sortedDesc_sort rest)]
      rw [filter_sort_comm]
      have hlen : (rest.filter (fun q => decide (dupKey q ≠ dupKey p))).length ≤ n := by
        calc (rest.filter (fun q => decide (dupKey q ≠ dupKey p))).length
            ≤ rest.length := List.length_filter_le _ _
          _ ≤ n := by rw [List.length_cons] at hl; omega
      rw [ih _ hlen, dedupByKey_cons, sortByEndDesc]

theorem takeUniqueUpTo4_eq_take (seen : List (Option ℤ × Option String × ℤ))
    (count : ℕ) (hc : count < 4) :
    ∀ (l : List FactPoint),
      takeUniqueUpTo4 seen count l = (dedupSeen seen l).take (4 - count) := by
  intro l
  induction l generalizing seen count with
  | nil => simp [takeUniqueUpTo4, dedupSeen]
  | cons p rest ih =>
    rw [takeUniqueUpTo4, dedupSeen]
    by_cases h : dupKey p ∈ seen
    · rw [if_pos h, if_pos h, ih seen count hc]
    · rw [if_neg h, if_neg h]
      obtain ⟨m, hm⟩ : ∃ m, 4 - count = m + 1 :=
        ⟨4 - count - 1, by omega⟩
      rw [hm, List.take_succ_cons]
      by_cases h4 : count + 1 = 4
      · rw [if_pos h4]
        have : m = 0 := by omega
        rw [this, List.take_zero]
      · rw [if_neg h4]
        have hc1 : count + 1 < 4 := by omega
        rw [ih (dupKey p :: seen) (count + 1) hc1]
        have : 4 - (count + 1) = m := by omega
        rw [this]

/-- The code's four-point selection equals the spec-ordered pipeline
(filter → de-duplicate → sort → take 4). -/
theorem codeUnique_eq_ttmSpecSelect (points : List FactPoint) :
    takeUniqueUpTo4 [] 0
        (sortByEndDesc (points.filter (fun p => isStandaloneQuarter p && hasValidValue p))) =
      ttmSpecSelect points := by
  rw [takeUniqueUpTo4_eq_take [] 0 (by norm_num)]
  rw [dedupSeen_nil_eq]
  rw [dedup_sort_comm
    (points.filter (fun p => isStandaloneQuarter p && hasValidValue p)).length
    _ le_rfl]
  rw [ttmSpecSelect, dedupSeen_nil_eq]

/-- C4: `computeTtm` behaves as the spec describes. Writing `select` for
the spec-ordered pipeline (filter to qualifying standalone quarters,
de-duplicate by (fiscal year, tag, period end), sort by period end descending,
take the four most recent unique points): (1) when `select` has exactly four
points whose newest-to-fourth-newest span is at most 430 days, the TTM is their
sum; (2) when fewer than four unique qualifying quarters exist, the TTM is the
most recent FY-tagged annual value; (3) with no qualifying quarters and no
annual point the result is null. -/
theorem computeTtm_spec (points : List FactPoint) :
    ((ttmSpecSelect points).length = 4 →
        spanDaysOf (ttmSpecSelect points) ≤ 430 →
        computeTtm points = some (sumVals (ttmSpecSelect points))) ∧
    ((ttmSpecSelect points).length < 4 →
        computeTtm points = computeAnnualFallback points) ∧
    (points.filter (fun p => isStandaloneQuarter p && hasValidValue p) = [] →
        points.filter (fun p => (p.fp.map jsToUpperCase = some "FY") && hasValidValue p) = [] →
        computeTtm points = none) := by
  have hU := codeUnique_eq_ttmSpecSelect points
  refine ⟨?_, ?_, ?_⟩
  · intro hlen hspan
    rw [computeTtm, computeTtmFromQuarters]
    simp only [hU]
    rw [if_neg (by omega), if_neg (not_lt.mpr hspan)]
  · intro hlen
    rw [computeTtm, computeTtmFromQuarters]
    simp only [hU]
    rw [if_pos hlen]
  · intro hq hannual
    rw [computeTtm, computeTtmFromQuarters, hq]
    rw [show sortByEndDesc [] = [] from rfl]
    rw [show takeUniqueUpTo4 [] 0 [] = [] from rfl]
    rw [if_pos (by simp)]
    rw [computeAnnualFallback, hannual]
    rfl

/-- C4 witness: exercises all three cases of the theorem on concrete data:
four standalone quarters spanning 273 days sum to their TTM; three quarters
plus an FY point fall back to the annual value; an empty fact list gives null. -/
theorem computeTtm_spec_witness :
    computeTtm [
      ⟨none, some 0, some "Q1", some 2023, some 1⟩,
      ⟨none, some 7862400000, some "Q2", some 2023, some 2⟩,
      ⟨none, some 15724800000, some "Q3", some 2023, some 3⟩,
      ⟨none, some 23587200000, some "Q4", some 2023, some 4⟩] = some 10 ∧
    computeTtm [
      ⟨none, some 0, some "Q1", some 2023, some 1⟩,
      ⟨none, some 7862400000, some "Q2", some 2023, some 2⟩,
      ⟨none, some 15724800000, some "Q3", some 2023, some 3⟩,
      ⟨none, some 23587200000, some "FY", some 2023, some 50⟩] = some 50 ∧
    computeTtm [] = none := by
  refine ⟨?_, ?_, ?_⟩
  · have hsel : ttmSpecSelect [
        ⟨none, some 0, some "Q1", some 2023, some 1⟩,
        ⟨none, some 7862400000, some "Q2", some 2023, some 2⟩,
        ⟨none, some 15724800000, some "Q3", some 2023, some 3⟩,
        ⟨none, some 23587200000, some "Q4", some 2023, some 4⟩] = [
        ⟨none, some 23587200000, some "Q4", some 2023, some 4⟩,
        ⟨none, some 15724800000, some "Q3", some 2023, some 3⟩,
        ⟨none, some 7862400000, some "Q2", some 2023, some 2⟩,
        ⟨none, some 0, some "Q1", some 2023, some 1⟩] := by decide
    have h := (computeTtm_spec [
        ⟨none, some 0, some "Q1", some 2023, some 1⟩,
        ⟨none, some 7862400000, some "Q2", some 2023, some 2⟩,
        ⟨none, some 15724800000, some "Q3", some 2023, some 3⟩,
        ⟨none, some 23587200000, some "Q4", some 2023, some 4⟩]).1
      (by decide)
      (by rw [hsel]; norm_num [spanDaysOf, endD, List.getD])
    rw [h, hsel]
    norm_num [sumVals, List.foldl]
  · have h := (computeTtm_spec [
        ⟨none, some 0, some "Q1", some 2023, some 1⟩,
        ⟨none, some 7862400000, some "Q2", some 2023, some 2⟩,
        ⟨none, some 15724800000, some "Q3", some 2023, some 3⟩,
        ⟨none, some 23587200000, some "FY", some 2023, some 50⟩]).2.1 (by decide)
    rw [h]
    decide
  · exact (computeTtm_spec []).2.2 rfl rfl

end StockScout
